import Mathlib

/-!
Verification of the Big Dipper buy-the-dip trading controller.

This file gives a shallow embedding, over `ℚ`, of the decision-and-safety
core of the repository (`dip_logic.py`, the relevant parts of `main.py`
and `config.py`), and proves or refutes the frozen claims about it.

Python floats are modelled as rationals; all of the arithmetic involved in
the claims is exact at the inputs considered.
-/

namespace BigDipper

/-- One OHLC bar (`utils.get_bars` dict entries; volume and timestamp are
never used by the functions modelled here). `open` is a Lean keyword, so the
open price field is called `bopen`. -/
structure Bar where
  bopen : ℚ
  high : ℚ
  low : ℚ
  close : ℚ
deriving DecidableEq, Repr

/-! ### Configuration constants (`config.py`, class `Config`) -/

/-- `config.MIN_ABSOLUTE_DIP` -/
def MIN_ABSOLUTE_DIP : ℚ := 0.05

/-- `config.COOLDOWN_HOURS` (a Python `int`) -/
def COOLDOWN_HOURS : ℤ := 3

/-- `config.LOOKBACK_DAYS` -/
def LOOKBACK_DAYS : ℕ := 20

/-- `config.BASE_POSITION_PCT` -/
def BASE_POSITION_PCT : ℚ := 0.025

/-- `config.MAX_POSITION_PCT` -/
def MAX_POSITION_PCT : ℚ := 0.15

/-- `config.DIP_MULTIPLIER` -/
def DIP_MULTIPLIER : ℚ := 1.75

/-- `config.USE_MARGIN` -/
def USE_MARGIN : Bool := true

/-- `config.MAX_MARGIN_PCT` -/
def MAX_MARGIN_PCT : ℚ := 0.20

/-- `config.MARGIN_SAFETY_THRESHOLD` -/
def MARGIN_SAFETY_THRESHOLD : ℚ := 0.15

/-- `config.INTRADAY_DROP_THRESHOLD` -/
def INTRADAY_DROP_THRESHOLD : ℚ := 0.06

/-- `config.INTRADAY_MULTIPLIER` -/
def INTRADAY_MULTIPLIER : ℚ := 1.5

/-- `config.ORDER_TIMEOUT_MINUTES` (compared against a float age in minutes) -/
def ORDER_TIMEOUT_MINUTES : ℚ := 15

/-! ### Dip Evaluator (`dip_logic.calculate_dip`, lines 10-40) -/

/-- The closes of the trailing window `bars[-lookback_days:]`.
Python's negative slicing keeps the whole list when `lookback_days = 0`
(`bars[-0:] = bars`) and the last `lookback_days` entries otherwise. -/
def trailing_closes (bars : List Bar) (lookback_days : ℕ) : List ℚ :=
  (if lookback_days = 0 then bars else bars.drop (bars.length - lookback_days)).map Bar.close

/-- `max(bar['close'] for bar in bars[-lookback_days:])`, `none` on an empty
window (Python would raise, but the guard in `calculate_dip` prevents that). -/
def recent_high (bars : List Bar) (lookback_days : ℕ) : Option ℚ :=
  (trailing_closes bars lookback_days).max?

/-- `dip_logic.calculate_dip`: dip as a percentage from the recent high,
`none` when there is insufficient data, the high is non-positive, or the
current price is at or above the high. -/
def calculate_dip (current_price : ℚ) (bars : List Bar) (lookback_days : ℕ) : Option ℚ :=
  if bars.isEmpty ∨ bars.length < lookback_days then none
  else
    match recent_high bars lookback_days with
    | none => none
    | some high =>
      if high ≤ 0 then none
      else if (current_price - high) / high < 0 then
        some ((current_price - high) / high)
      else none

/-! ### Admission Gate (`dip_logic.should_buy`, lines 43-91) -/

/-- The denial reasons of `should_buy` (the Python code returns distinct
formatted strings; only their identity matters to the claims). -/
inductive Reason where
  | belowAbsoluteMin
  | belowThreshold
  | positionAtMax
  | cooldownActive
  | ok
deriving DecidableEq, Repr

/-- The dynamic cooldown of `should_buy` lines 82-84: the base cooldown,
or `max(1, cooldown_hours // 2)` when `abs(dip_pct) > 0.07` (Python `//` is
floor division, `Int.fdiv`). -/
def effective_cooldown (dip_pct : ℚ) (cooldown_hours : ℤ) : ℤ :=
  if |dip_pct| > 0.07 then max 1 (Int.fdiv cooldown_hours 2) else cooldown_hours

/-- `dip_logic.should_buy`.  The unused `symbol` argument is dropped, and the
pair `(datetime.now(), last_trade_time)` is replaced by the elapsed time
`hours_since` it is only ever used to form (`none` when no last-trade
timestamp exists). -/
def should_buy (dip_pct min_dip position_value max_position : ℚ)
    (hours_since : Option ℚ) (cooldown_hours : ℤ)
    (min_absolute_dip : ℚ) : Bool × Reason :=
  if |dip_pct| < min_absolute_dip then (false, .belowAbsoluteMin)
  else if |dip_pct| < min_dip then (false, .belowThreshold)
  else if position_value ≥ max_position then (false, .positionAtMax)
  else
    match hours_since with
    | some h =>
      if h < (effective_cooldown dip_pct cooldown_hours : ℚ) then (false, .cooldownActive)
      else (true, .ok)
    | none => (true, .ok)

/-! ### Sizing Engine (`dip_logic.calculate_shares`, lines 94-155) -/

/-- Lines 131-132: `size_multiplier = (abs(dip_pct) / 0.03) * dip_multiplier`. -/
def size_multiplier (dip_pct dip_multiplier : ℚ) : ℚ :=
  (|dip_pct| / 0.03) * dip_multiplier

/-- Line 135: clamp the volatility factor to `[0.5, 2.0]`, treating
non-positive input as `1.0`. -/
def safe_vol_factor (volatility_factor : ℚ) : ℚ :=
  if volatility_factor > 0 then max 0.5 (min 2.0 volatility_factor) else 1

/-- Lines 138-143: the target position value, capped at `equity * max_pct`. -/
def target_value (dip_pct equity base_pct max_pct dip_multiplier volatility_factor : ℚ) : ℚ :=
  min (equity * base_pct * (size_multiplier dip_pct dip_multiplier / safe_vol_factor volatility_factor))
    (equity * max_pct)

/-- Python `int()` truncates toward zero. -/
def pyInt (q : ℚ) : ℤ :=
  if 0 ≤ q then ⌊q⌋ else ⌈q⌉

/-- `dip_logic.calculate_shares` exactly as it stands in `src/dip_logic.py`:
note that it has NO `intraday_multiplier` parameter. -/
def calculate_shares (dip_pct current_price equity current_position_value
    base_pct max_pct dip_multiplier : ℚ) (fractional : Bool)
    (volatility_factor : ℚ) : ℚ :=
  let tv := target_value dip_pct equity base_pct max_pct dip_multiplier volatility_factor
  let additional_value := max 0 (tv - current_position_value)
  if additional_value < 100 then 0
  else
    let shares := additional_value / current_price
    if fractional then shares else (pyInt shares : ℚ)

/-- Modelled from the spec: the Sizing Engine variant that `main.py` line
514-520 actually invokes.  `execute_opportunity` passes an
`intraday_multiplier=` keyword argument, but `src/dip_logic.py`'s
`calculate_shares` accepts no such parameter (in Python the call raises
`TypeError`); spec section 4.2 step 2 gives the intended formula
`size_multiplier = dip_ratio * dip_multiplier * intraday_multiplier`,
with every other step identical to `calculate_shares` above. -/
def calculate_shares_spec (dip_pct current_price equity current_position_value
    base_pct max_pct dip_multiplier : ℚ) (fractional : Bool)
    (volatility_factor intraday_multiplier : ℚ) : ℚ :=
  let sm := size_multiplier dip_pct dip_multiplier * intraday_multiplier
  let tv := min (equity * base_pct * (sm / safe_vol_factor volatility_factor)) (equity * max_pct)
  let additional_value := max 0 (tv - current_position_value)
  if additional_value < 100 then 0
  else
    let shares := additional_value / current_price
    if fractional then shares else (pyInt shares : ℚ)

/-- Modelled from the spec: `calculate_intraday_drop` is imported from
`utils` by `main.py` line 430 but is not defined anywhere under `src/`.
Per spec section 4.1 it takes only the most recent bar and returns
`(close - open) / open` if that value is negative and the open is positive,
else no drop. -/
def calculate_intraday_drop (bars : List Bar) : Option ℚ :=
  match bars.getLast? with
  | none => none
  | some bar =>
    if 0 < bar.bopen ∧ (bar.close - bar.bopen) / bar.bopen < 0 then
      some ((bar.close - bar.bopen) / bar.bopen)
    else none

/-- The intraday multiplier derivation of `main.scan_symbol` lines 427-433:
`1.0` unless the symbol is volatility-flagged and the intraday drop breaches
`INTRADAY_DROP_THRESHOLD`, in which case `INTRADAY_MULTIPLIER`.
(The `if intraday_drop_pct and ...` truthiness test is equivalent to the
`some` match here because the modelled drop is always negative, hence
truthy.) -/
def intraday_multiplier_for (volatile : Bool) (bars : List Bar) : ℚ :=
  if volatile then
    match calculate_intraday_drop bars with
    | some d => if |d| ≥ INTRADAY_DROP_THRESHOLD then INTRADAY_MULTIPLIER else 1
    | none => 1
  else 1

/-- `dip_logic.calculate_opportunity_score`, lines 177-195 (this is the
version `main.py` imports; note `ℚ` division by zero is `0` in Lean while
Python would raise — every claim uses a positive threshold). -/
def calculate_opportunity_score (dip_pct threshold : ℚ) : ℚ :=
  |dip_pct| / threshold

/-- `dip_logic.calculate_limit_price`, line 172, with Python's banker's
rounding to two decimals modelled exactly: round-half-to-even of
`100 * ask_price * (1 - offset_pct)`, divided by 100. -/
def round_half_even (q : ℚ) : ℤ :=
  if q - ⌊q⌋ = 1 / 2 then (if 2 ∣ ⌊q⌋ then ⌊q⌋ else ⌊q⌋ + 1) else round q

def calculate_limit_price (ask_price offset_pct : ℚ) : ℚ :=
  (round_half_even (ask_price * (1 - offset_pct) * 100) : ℚ) / 100

/-! ### Emergency Brake (`main.LittleDipper.run`, lines 158-196) -/

/-- Line 159: `margin_debt = max(0, -cash)`. -/
def margin_debt (cash : ℚ) : ℚ := max 0 (-cash)

/-- Line 160: `margin_ratio = margin_debt / equity if equity > 0 else 0`
(the loop has already returned fatally when `equity ≤ 0`, line 153). -/
def margin_ratio (equity cash : ℚ) : ℚ :=
  if equity > 0 then margin_debt cash / equity else 0

/-- Line 164: the cycle-start safety check that halts all trading for the
cycle: margin in use and the current margin ratio strictly above
`MARGIN_SAFETY_THRESHOLD`. -/
def emergency_brake_trips (equity cash : ℚ) : Bool :=
  USE_MARGIN && decide (margin_ratio equity cash > MARGIN_SAFETY_THRESHOLD)

/-! ### Capital Governor and execution (`main.execute_opportunity`,
lines 484-562, and `main._place_order`, lines 564-620) -/

/-- The opportunity dict produced by `scan_symbol` (lines 468-478), minus
the fields execution never reads. Symbols are numbered. -/
structure Opportunity where
  symbol : ℕ
  dip_pct : ℚ
  threshold : ℚ
  current_price : ℚ
  volatility_factor : ℚ
  intraday_multiplier : ℚ
  current_position_value : ℚ
deriving DecidableEq, Repr

/-- The outcome classification documented on `execute_opportunity`
(lines 497-501). `error` is kept for completeness although the pure
embedding never produces it. -/
inductive ExecOutcome where
  | executed
  | tooSmall
  | capital
  | errored
deriving DecidableEq, Repr

/-- A locally tracked order (`self.pending_orders[order.id]`,
lines 604-609). `submitted` is a timestamp; ages are measured in minutes
on the same clock. -/
structure PendingOrder where
  symbol : ℕ
  shares : ℚ
  limit : ℚ
  submitted : ℚ
deriving DecidableEq, Repr

/-- The controller's mutable in-memory state: the two cooldown caches, the
pending-order map (association list keyed by order id), and the running
committed-this-cycle total `self._cycle_order_value`. -/
structure ControllerState where
  last_trade_times : List (ℕ × ℚ)
  recent_trades : List (ℕ × ℚ)
  pending_orders : List (ℕ × PendingOrder)
  cycle_order_value : ℚ
deriving DecidableEq, Repr

def ControllerState.initial : ControllerState := ⟨[], [], [], 0⟩

/-- What the brokerage did with a `_place_order` attempt.  `failed` covers
the no-quote early returns and any exception raised inside `_place_order`
— all of which the method catches itself (lines 619-620), leaving the
controller state untouched and returning normally. -/
inductive PlaceOutcome where
  | submitted (order_id : ℕ) (limit_price : ℚ)
  | failed
deriving DecidableEq, Repr

/-- `main._place_order`: on a successful submission the order is tracked
and both cooldown caches record the trade time (lines 603-613); on any
failure the exception is swallowed and nothing changes. -/
def place_order (st : ControllerState) (symbol : ℕ) (shares now : ℚ)
    (outcome : PlaceOutcome) : ControllerState :=
  match outcome with
  | .failed => st
  | .submitted oid limit =>
    { st with
      pending_orders := (oid, ⟨symbol, shares, limit, now⟩) :: st.pending_orders
      last_trade_times := (symbol, now) :: st.last_trade_times
      recent_trades := (symbol, now) :: st.recent_trades }

/-- `main.execute_opportunity` (lines 484-562), with the sizing call
modelled by `calculate_shares_spec` (see its doc comment: the literal call
in the source raises `TypeError`, claim C1). Returns the (outcome, state)
pair; the happy path places the order and then unconditionally adds
`order_value` to the cycle total and reports `executed` (lines 556-558),
whatever `_place_order` did. -/
def execute_opportunity (opp : Opportunity) (equity cash buying_power : ℚ)
    (st : ControllerState) (now : ℚ) (outcome : PlaceOutcome) :
    ExecOutcome × ControllerState :=
  let shares := calculate_shares_spec opp.dip_pct opp.current_price equity
    opp.current_position_value BASE_POSITION_PCT MAX_POSITION_PCT DIP_MULTIPLIER
    true opp.volatility_factor opp.intraday_multiplier
  if shares < 0.01 then (.tooSmall, st)
  else
    let order_value := shares * opp.current_price
    let commit : ExecOutcome × ControllerState :=
      let st' := place_order st opp.symbol shares now outcome
      (.executed, { st' with cycle_order_value := st'.cycle_order_value + order_value })
    if USE_MARGIN then
      let projected_cash := cash - st.cycle_order_value - order_value
      let debt := max 0 (-projected_cash)
      let projected_ratio := if equity > 0 then debt / equity else 0
      if projected_ratio > MAX_MARGIN_PCT then (.capital, st)
      else if order_value > buying_power then (.capital, st)
      else commit
    else commit

/-- The order value `execute_opportunity` commits for an opportunity
(line 526); it depends only on the opportunity and the equity. -/
def opp_order_value (opp : Opportunity) (equity : ℚ) : ℚ :=
  calculate_shares_spec opp.dip_pct opp.current_price equity
    opp.current_position_value BASE_POSITION_PCT MAX_POSITION_PCT DIP_MULTIPLIER
    true opp.volatility_factor opp.intraday_multiplier * opp.current_price

/-- The body of PASS 3 of `main.run` (lines 308-315): execute the
prioritized opportunities front to back, threading the controller state,
and record each outcome.  Each opportunity is paired with the brokerage's
response to its eventual `_place_order` call. -/
def exec_list (opps : List (Opportunity × PlaceOutcome))
    (equity cash buying_power now : ℚ) (st : ControllerState) :
    ControllerState × List (Opportunity × ExecOutcome) :=
  match opps with
  | [] => (st, [])
  | p :: rest =>
    let r := execute_opportunity p.1 equity cash buying_power st now p.2
    let tail := exec_list rest equity cash buying_power now r.2
    (tail.1, (p.1, r.1) :: tail.2)

/-- PASS 3 of `main.run` together with the cycle-start reset
`self._cycle_order_value = 0.0` (line 147). -/
def run_cycle_exec (opps : List (Opportunity × PlaceOutcome))
    (equity cash buying_power now : ℚ) (st : ControllerState) :
    ControllerState × List (Opportunity × ExecOutcome) :=
  exec_list opps equity cash buying_power now { st with cycle_order_value := 0 }

/-! ### Scan-level cooldown gating (`main.scan_symbol`, lines 450-461) -/

/-- The composite cooldown gating a scanned symbol passes through:
`scan_symbol`'s backup check against the epoch-seconds cache
(lines 451-454, always the full base cooldown) followed by `should_buy`'s
dynamic cooldown check.  `elapsed_hours = none` models a symbol that never
traded: `self._recent_trades.get(symbol, 0)` then yields a huge elapsed
time (epoch seconds since 0) that passes the backup check, and
`should_buy` receives `last_trade_time = None`. Both caches are written
together by `_place_order`, so a single elapsed time feeds both checks. -/
def denied_on_cooldown (dip_pct min_dip position_value max_position : ℚ)
    (elapsed_hours : Option ℚ) (cooldown_hours : ℤ)
    (min_absolute_dip : ℚ) : Bool :=
  match elapsed_hours with
  | none => false
  | some e =>
    decide (e * 3600 < (cooldown_hours : ℚ) * 3600) ||
      decide (should_buy dip_pct min_dip position_value max_position (some e)
        cooldown_hours min_absolute_dip = (false, .cooldownActive))

/-! ### Prioritizer (`main.run` lines 286-290) -/

/-- The sort key of `main.run` line 288:
`calculate_opportunity_score(opp['dip_pct'], opp['threshold'])`. -/
def opp_score (o : Opportunity) : ℚ :=
  calculate_opportunity_score o.dip_pct o.threshold

/-- Stable descending insertion by opportunity score, modelling Python's
`list.sort(key=..., reverse=True)`. -/
def insert_by_score (x : Opportunity) : List Opportunity → List Opportunity
  | [] => [x]
  | y :: ys =>
    if opp_score y < opp_score x then x :: y :: ys
    else y :: insert_by_score x ys

/-- The sort applied to `qualifying_opportunities` before execution. -/
def sort_by_score (l : List Opportunity) : List Opportunity :=
  l.foldr insert_by_score []

/-! ### Order Lifecycle Manager (`main.manage_pending_orders`,
lines 622-663) -/

/-- Dictionary membership test `order_id in self.pending_orders`. -/
def lookup_order (oid : ℕ) : List (ℕ × PendingOrder) → Option PendingOrder
  | [] => none
  | e :: es => if e.1 = oid then some e.2 else lookup_order oid es

/-- `del self.pending_orders[order_id]` (keys are unique in a dict; the
model removes every entry with the key). -/
def erase_order (oid : ℕ) (l : List (ℕ × PendingOrder)) : List (ℕ × PendingOrder) :=
  l.filter (fun e => e.1 ≠ oid)

/-- The body of the first loop (lines 632-651): for one brokerage open
order, if it is tracked and older than the timeout, cancel it (the
cancellation's own success or failure does not matter: the `del` is outside
the inner `try`) and drop the record.  The second component accumulates the
order ids for which a cancellation call was issued. -/
def manage_step (now : ℚ) (acc : List (ℕ × PendingOrder) × List ℕ) (oid : ℕ) :
    List (ℕ × PendingOrder) × List ℕ :=
  match lookup_order oid acc.1 with
  | none => acc
  | some tracked =>
    if now - tracked.submitted > ORDER_TIMEOUT_MINUTES then
      (erase_order oid acc.1, acc.2 ++ [oid])
    else acc

/-- `main.manage_pending_orders`: the timeout loop over the brokerage's
open orders, then the cleanup loop deleting every tracked order absent
from the open set.  Returns the new pending map and the ids that received
a cancellation call.  `now - submitted` is the order age in minutes. -/
def manage_pending_orders (pending : List (ℕ × PendingOrder))
    (open_orders : List ℕ) (now : ℚ) : List (ℕ × PendingOrder) × List ℕ :=
  let first := open_orders.foldl (manage_step now) (pending, [])
  (first.1.filter (fun e => e.1 ∈ open_orders), first.2)

/-! ## Helper lemmas -/

theorem mem_insert_by_score {b x : Opportunity} :
    ∀ {l : List Opportunity}, b ∈ insert_by_score x l ↔ b = x ∨ b ∈ l := by
  intro l
  induction l with
  | nil => simp [insert_by_score]
  | cons y ys ih =>
    rw [insert_by_score]
    split_ifs with h
    · simp
    · simp only [List.mem_cons, ih]
      tauto

theorem sorted_insert_by_score (x : Opportunity) {l : List Opportunity}
    (h : l.Sorted (fun a b => opp_score b ≤ opp_score a)) :
    (insert_by_score x l).Sorted (fun a b => opp_score b ≤ opp_score a) := by
  induction l with
  | nil => simp [insert_by_score]
  | cons y ys ih =>
    rw [insert_by_score]
    rw [List.sorted_cons] at h
    split_ifs with hc
    · rw [List.sorted_cons]
      refine ⟨?_, List.sorted_cons.2 h⟩
      intro b hb
      rcases List.mem_cons.1 hb with rfl | hb
      · exact le_of_lt hc
      · exact le_trans (h.1 b hb) (le_of_lt hc)
    · rw [List.sorted_cons]
      refine ⟨?_, ih h.2⟩
      intro b hb
      rcases mem_insert_by_score.1 hb with rfl | hb
      · exact not_lt.1 hc
      · exact h.1 b hb

theorem sorted_sort_by_score (l : List Opportunity) :
    (sort_by_score l).Sorted (fun a b => opp_score b ≤ opp_score a) := by
  induction l with
  | nil => simp [sort_by_score]
  | cons x xs ih => exact sorted_insert_by_score x ih

theorem safe_vol_factor_pos (v : ℚ) : 0 < safe_vol_factor v := by
  unfold safe_vol_factor
  split_ifs with h
  · exact lt_of_lt_of_le (by norm_num) (le_max_left _ _)
  · norm_num

theorem target_value_mono {d1 d2 equity base_pct max_pct dm vol : ℚ}
    (heq : 0 ≤ equity) (hb : 0 ≤ base_pct) (hdm : 0 ≤ dm) (hd : |d1| ≤ |d2|) :
    target_value d1 equity base_pct max_pct dm vol ≤
      target_value d2 equity base_pct max_pct dm vol := by
  unfold target_value
  refine min_le_min ?_ le_rfl
  refine mul_le_mul_of_nonneg_left ?_ (mul_nonneg heq hb)
  refine (div_le_div_right (safe_vol_factor_pos vol)).2 ?_
  unfold size_multiplier
  exact mul_le_mul_of_nonneg_right
    ((div_le_div_right (by norm_num)).2 hd) hdm

theorem pyInt_nonneg {q : ℚ} (h : 0 ≤ q) : 0 ≤ (pyInt q : ℚ) := by
  unfold pyInt
  rw [if_pos h]
  exact_mod_cast Int.floor_nonneg.2 h

theorem pyInt_mono {q1 q2 : ℚ} (h0 : 0 ≤ q1) (h : q1 ≤ q2) :
    (pyInt q1 : ℚ) ≤ (pyInt q2 : ℚ) := by
  unfold pyInt
  rw [if_pos h0, if_pos (h0.trans h)]
  exact_mod_cast Int.floor_le_floor h

theorem execute_opportunity_cycle_value (opp : Opportunity)
    (equity cash buying_power : ℚ) (st : ControllerState) (now : ℚ)
    (outcome : PlaceOutcome) :
    (execute_opportunity opp equity cash buying_power st now outcome).2.cycle_order_value =
      st.cycle_order_value +
        (if (execute_opportunity opp equity cash buying_power st now outcome).1 =
            ExecOutcome.executed
         then opp_order_value opp equity else 0) := by
  simp only [execute_opportunity, opp_order_value, USE_MARGIN, if_true]
  split_ifs <;> cases outcome <;> simp_all [place_order]

theorem exec_list_cycle_value (opps : List (Opportunity × PlaceOutcome))
    (equity cash buying_power now : ℚ) : ∀ st : ControllerState,
    (exec_list opps equity cash buying_power now st).1.cycle_order_value =
      st.cycle_order_value +
        (((exec_list opps equity cash buying_power now st).2.filter
            (fun pr => pr.2 = ExecOutcome.executed)).map
          (fun pr => opp_order_value pr.1 equity)).sum := by
  induction opps with
  | nil => intro st; simp [exec_list]
  | cons p rest ih =>
    intro st
    rw [exec_list]
    dsimp only
    rw [ih]
    rw [execute_opportunity_cycle_value]
    by_cases hr : (execute_opportunity p.1 equity cash buying_power st now p.2).1 =
        ExecOutcome.executed
    · rw [if_pos hr, List.filter_cons_of_pos (by simpa using hr), List.map_cons,
        List.sum_cons]
      ring
    · rw [if_neg hr, List.filter_cons_of_neg (by simpa using hr)]
      ring

theorem mem_erase_order {e : ℕ × PendingOrder} {oid : ℕ}
    {l : List (ℕ × PendingOrder)} :
    e ∈ erase_order oid l ↔ e ∈ l ∧ e.1 ≠ oid := by
  simp [erase_order]

theorem erase_order_keys_sublist (oid : ℕ) (l : List (ℕ × PendingOrder)) :
    ((erase_order oid l).map Prod.fst).Sublist (l.map Prod.fst) :=
  (List.filter_sublist l).map Prod.fst

theorem lookup_order_eq_some_of_mem {oid : ℕ} {p : PendingOrder} :
    ∀ {l : List (ℕ × PendingOrder)}, (l.map Prod.fst).Nodup → (oid, p) ∈ l →
      lookup_order oid l = some p := by
  intro l
  induction l with
  | nil => intro _ h; exact absurd h (List.not_mem_nil _)
  | cons e es ih =>
    intro hnd hm
    rw [List.map_cons, List.nodup_cons] at hnd
    rw [lookup_order]
    rcases List.mem_cons.1 hm with rfl | hm
    · rw [if_pos rfl]
    · by_cases he : e.1 = oid
      · exact absurd (he ▸ List.mem_map_of_mem Prod.fst hm) hnd.1
      · rw [if_neg he]
        exact ih hnd.2 hm

theorem lookup_order_eq_none_iff {oid : ℕ} :
    ∀ {l : List (ℕ × PendingOrder)},
      lookup_order oid l = none ↔ oid ∉ l.map Prod.fst := by
  intro l
  induction l with
  | nil => simp [lookup_order]
  | cons e es ih =>
    rw [lookup_order]
    by_cases he : e.1 = oid
    · simp [he]
    · rw [if_neg he]
      simp only [List.map_cons, List.mem_cons, ih]
      constructor
      · rintro h (h1 | h2)
        · exact he h1.symm
        · exact h h2
      · intro h h2
        exact h (Or.inr h2)

theorem keys_nodup_mem_unique {l : List (ℕ × PendingOrder)} {a : ℕ}
    {b c : PendingOrder} (hnd : (l.map Prod.fst).Nodup)
    (hb : (a, b) ∈ l) (hc : (a, c) ∈ l) : b = c := by
  have h1 := lookup_order_eq_some_of_mem hnd hb
  have h2 := lookup_order_eq_some_of_mem hnd hc
  rw [h1] at h2
  injection h2

theorem manage_step_pending_subset {now : ℚ}
    {acc : List (ℕ × PendingOrder) × List ℕ} {oid : ℕ} {e : ℕ × PendingOrder}
    (h : e ∈ (manage_step now acc oid).1) : e ∈ acc.1 := by
  rw [manage_step] at h
  cases hl : lookup_order oid acc.1 with
  | none => rw [hl] at h; exact h
  | some tracked =>
    rw [hl] at h
    dsimp only at h
    split_ifs at h
    · exact (mem_erase_order.1 h).1
    · exact h

theorem manage_step_keys_nodup {now : ℚ}
    {acc : List (ℕ × PendingOrder) × List ℕ} {oid : ℕ}
    (h : (acc.1.map Prod.fst).Nodup) :
    (((manage_step now acc oid).1.map Prod.fst)).Nodup := by
  rw [manage_step]
  cases hl : lookup_order oid acc.1 with
  | none => exact h
  | some tracked =>
    dsimp only
    split_ifs
    · exact h.sublist (erase_order_keys_sublist oid acc.1)
    · exact h

theorem manage_step_cancels {now : ℚ}
    {acc : List (ℕ × PendingOrder) × List ℕ} {oid : ℕ} :
    (manage_step now acc oid).2 = acc.2 ∨
      (manage_step now acc oid).2 = acc.2 ++ [oid] := by
  rw [manage_step]
  cases lookup_order oid acc.1 with
  | none => exact Or.inl rfl
  | some tracked =>
    dsimp only
    split_ifs
    · exact Or.inr rfl
    · exact Or.inl rfl

theorem fold_cancels_mono (now : ℚ) {c : ℕ} :
    ∀ (oids : List ℕ) (acc : List (ℕ × PendingOrder) × List ℕ),
      c ∈ acc.2 → c ∈ (oids.foldl (manage_step now) acc).2 := by
  intro oids
  induction oids with
  | nil => intro acc h; exact h
  | cons o rest ih =>
    intro acc h
    rw [List.foldl_cons]
    refine ih _ ?_
    rcases @manage_step_cancels now acc o with he | he <;>
      rw [he]
    · exact h
    · exact List.mem_append_left _ h

theorem fold_cancels_src (now : ℚ) {c : ℕ} :
    ∀ (oids : List ℕ) (acc : List (ℕ × PendingOrder) × List ℕ),
      c ∈ (oids.foldl (manage_step now) acc).2 → c ∈ acc.2 ∨ c ∈ oids := by
  intro oids
  induction oids with
  | nil => intro acc h; exact Or.inl h
  | cons o rest ih =>
    intro acc h
    rw [List.foldl_cons] at h
    rcases ih _ h with h2 | h2
    · rcases @manage_step_cancels now acc o with he | he <;>
        rw [he] at h2
      · exact Or.inl h2
      · rcases List.mem_append.1 h2 with h3 | h3
        · exact Or.inl h3
        · exact Or.inr (List.mem_cons.2 (Or.inl (List.mem_singleton.1 h3)))
    · exact Or.inr (List.mem_cons.2 (Or.inr h2))

theorem fold_pending_clean (now : ℚ) {e : ℕ × PendingOrder} :
    ∀ (oids : List ℕ) (acc : List (ℕ × PendingOrder) × List ℕ),
      (acc.1.map Prod.fst).Nodup →
      e ∈ (oids.foldl (manage_step now) acc).1 →
      e ∈ acc.1 ∧ (e.1 ∈ oids → ¬ now - e.2.submitted > ORDER_TIMEOUT_MINUTES) := by
  intro oids
  induction oids with
  | nil =>
    intro acc _ h
    exact ⟨h, fun hm => absurd hm (List.not_mem_nil _)⟩
  | cons o rest ih =>
    intro acc hnd h
    rw [List.foldl_cons] at h
    obtain ⟨hmem, hrest⟩ := ih _ (manage_step_keys_nodup hnd) h
    have hacc := manage_step_pending_subset hmem
    refine ⟨hacc, ?_⟩
    intro ho
    rcases List.mem_cons.1 ho with ho | ho
    · -- e's key is the order id processed at this step
      intro hold
      rw [manage_step] at hmem
      cases hl : lookup_order o acc.1 with
      | none =>
        exact absurd (ho ▸ List.mem_map_of_mem Prod.fst hacc)
          (lookup_order_eq_none_iff.1 hl)
      | some tracked =>
        rw [hl] at hmem
        dsimp only at hmem
        have hoe : (o, e.2) ∈ acc.1 := by
          rw [← ho]
          simpa using hacc
        have h2 := lookup_order_eq_some_of_mem hnd hoe
        rw [hl] at h2
        injection h2 with htr
        split_ifs at hmem with hage
        · exact (mem_erase_order.1 hmem).2 ho
        · rw [htr] at hage
          exact hage hold
    · exact hrest ho

theorem fold_cancelling (now : ℚ) {oid : ℕ} {p : PendingOrder} :
    ∀ (oids : List ℕ) (acc : List (ℕ × PendingOrder) × List ℕ),
      (acc.1.map Prod.fst).Nodup → (oid, p) ∈ acc.1 →
      now - p.submitted > ORDER_TIMEOUT_MINUTES → oid ∈ oids →
      oid ∈ (oids.foldl (manage_step now) acc).2 := by
  intro oids
  induction oids with
  | nil => intro _ _ _ _ h; exact absurd h (List.not_mem_nil _)
  | cons o rest ih =>
    intro acc hnd hmem hold ho
    rw [List.foldl_cons]
    by_cases hoo : o = oid
    · subst hoo
      have hl : lookup_order o acc.1 = some p := lookup_order_eq_some_of_mem hnd hmem
      have hstep : (manage_step now acc o).2 = acc.2 ++ [o] := by
        rw [manage_step, hl]
        dsimp only
        rw [if_pos hold]
      exact fold_cancels_mono now rest _ (by rw [hstep]; simp)
    · rcases List.mem_cons.1 ho with hr | hr
      · exact absurd hr.symm hoo
      · refine ih _ (manage_step_keys_nodup hnd) ?_ hold hr
        rw [manage_step]
        cases hl : lookup_order o acc.1 with
        | none => exact hmem
        | some tracked =>
          dsimp only
          split_ifs
          · exact mem_erase_order.2 ⟨hmem, fun hc => hoo hc.symm⟩
          · exact hmem

/-! ## Claims -/

/-- C1: the claim is right and the code is wrong (code_bug).  Spec section
4.2 and `main.execute_opportunity` both intend
`size_multiplier = dip_ratio * dip_multiplier * intraday_multiplier`, but
`src/dip_logic.py`'s `calculate_shares` has no `intraday_multiplier`
parameter (the call in `main.py` lines 514-520 raises `TypeError`), and the
`calculate_intraday_drop` that `main.py` line 430 imports does not exist in
`src/utils.py`.  This theorem documents the gap at a concrete failing
input: the spec-modelled intraday-drop function flags an 8% intraday drop
on a volatility-flagged symbol, giving the 1.5x multiplier, under which the
spec-modelled Sizing Engine returns 48 shares, while the source
`calculate_shares` (which coincides with the spec-modelled engine exactly
when the multiplier is 1) has no intraday input and returns 112/3 shares. -/
theorem C1_intraday_sizing_gap :
    calculate_intraday_drop [⟨100, 101, 90, 92⟩] = some (-0.08) ∧
    intraday_multiplier_for true [⟨100, 101, 90, 92⟩] = 1.5 ∧
    calculate_shares_spec (-0.08) 100 32000 0 0.025 0.15 1.75 true 1 1.5 = 48 ∧
    calculate_shares (-0.08) 100 32000 0 0.025 0.15 1.75 true 1 = 112 / 3 ∧
    (112 : ℚ) / 3 ≠ 48 ∧
    (∀ dip_pct current_price equity current_position_value base_pct max_pct
        dip_multiplier fractional volatility_factor,
      calculate_shares_spec dip_pct current_price equity current_position_value
          base_pct max_pct dip_multiplier fractional volatility_factor 1 =
        calculate_shares dip_pct current_price equity current_position_value
          base_pct max_pct dip_multiplier fractional volatility_factor) := by
  refine ⟨?_, ?_, ?_, ?_, by norm_num, ?_⟩
  · norm_num [calculate_intraday_drop, List.getLast?]
  · norm_num [intraday_multiplier_for, calculate_intraday_drop, List.getLast?,
      INTRADAY_DROP_THRESHOLD, INTRADAY_MULTIPLIER]
    rw [abs_of_nonneg (by norm_num)]
    norm_num
  · norm_num [calculate_shares_spec, size_multiplier, safe_vol_factor]
    rw [abs_of_nonneg (by norm_num)]
    norm_num
  · norm_num [calculate_shares, target_value, size_multiplier, safe_vol_factor]
    rw [abs_of_nonneg (by norm_num)]
    norm_num
  · intro dip_pct current_price equity current_position_value base_pct max_pct
      dip_multiplier fractional volatility_factor
    simp [calculate_shares_spec, calculate_shares, target_value]

/-- C3: the Emergency Brake, evaluated at cycle start, uses
`margin_debt = max(0, -cash)` and `margin_ratio = margin_debt / equity`,
and halts the cycle exactly when the ratio strictly exceeds
`MARGIN_SAFETY_THRESHOLD = 0.15`; with equity 100000, cash -15000 the
ratio is exactly 0.15 and the brake does not trip, while cash -16000
gives 0.16 and it trips. -/
theorem C3_emergency_brake (equity cash : ℚ) (h : 0 < equity) :
    (emergency_brake_trips equity cash = true ↔
      max 0 (-cash) / equity > MARGIN_SAFETY_THRESHOLD) ∧
    margin_ratio 100000 (-15000) = 0.15 ∧
    emergency_brake_trips 100000 (-15000) = false ∧
    margin_ratio 100000 (-16000) = 0.16 ∧
    emergency_brake_trips 100000 (-16000) = true := by
  refine ⟨?_, ?_, ?_, ?_, ?_⟩
  · simp [emergency_brake_trips, margin_ratio, margin_debt, USE_MARGIN, if_pos h]
  · norm_num [margin_ratio, margin_debt]
  · norm_num [emergency_brake_trips, margin_ratio, margin_debt, USE_MARGIN,
      MARGIN_SAFETY_THRESHOLD]
  · norm_num [margin_ratio, margin_debt]
  · norm_num [emergency_brake_trips, margin_ratio, margin_debt, USE_MARGIN,
      MARGIN_SAFETY_THRESHOLD]

/-- C5: the Admission Gate runs its four checks sequentially,
short-circuiting on the first failure with a distinct denial reason, in
the order absolute floor, symbol threshold, position cap, cooldown; in
particular any dip with `|dip| < min_absolute_dip` is denied with the
absolute-floor reason regardless of every other input (so even when
`|dip| ≥ min_dip`). -/
theorem C5_admission_gate (dip_pct min_dip position_value max_position : ℚ)
    (hours_since : Option ℚ) (cooldown_hours : ℤ) (min_absolute_dip : ℚ) :
    (|dip_pct| < min_absolute_dip →
      should_buy dip_pct min_dip position_value max_position hours_since
        cooldown_hours min_absolute_dip = (false, .belowAbsoluteMin)) ∧
    (should_buy dip_pct min_dip position_value max_position hours_since
        cooldown_hours min_absolute_dip = (false, .belowThreshold) ↔
      min_absolute_dip ≤ |dip_pct| ∧ |dip_pct| < min_dip) ∧
    (should_buy dip_pct min_dip position_value max_position hours_since
        cooldown_hours min_absolute_dip = (false, .positionAtMax) ↔
      min_absolute_dip ≤ |dip_pct| ∧ min_dip ≤ |dip_pct| ∧
        max_position ≤ position_value) ∧
    (should_buy dip_pct min_dip position_value max_position hours_since
        cooldown_hours min_absolute_dip = (false, .cooldownActive) ↔
      min_absolute_dip ≤ |dip_pct| ∧ min_dip ≤ |dip_pct| ∧
        position_value < max_position ∧
        ∃ h, hours_since = some h ∧
          h < (effective_cooldown dip_pct cooldown_hours : ℚ)) ∧
    ((should_buy dip_pct min_dip position_value max_position hours_since
        cooldown_hours min_absolute_dip).1 = true ↔
      min_absolute_dip ≤ |dip_pct| ∧ min_dip ≤ |dip_pct| ∧
        position_value < max_position ∧
        ∀ h, hours_since = some h →
          (effective_cooldown dip_pct cooldown_hours : ℚ) ≤ h) := by
  unfold should_buy
  rcases hours_since with _ | h <;>
    dsimp only <;>
    split_ifs with h1 h2 h3 h4 <;>
    simp_all [not_lt, le_of_lt]

theorem C5_admission_gate_witness :
    |(-0.04 : ℚ)| < 0.05 ∧ (0.03 : ℚ) ≤ |(-0.04 : ℚ)| ∧
    should_buy (-0.04) 0.03 0 5000 none 4 0.05 = (false, .belowAbsoluteMin) :=
  ⟨by rw [abs_of_nonpos (by norm_num)]; norm_num,
   by rw [abs_of_nonpos (by norm_num)]; norm_num,
   (C5_admission_gate (-0.04) 0.03 0 5000 none 4 0.05).1
     (by rw [abs_of_nonpos (by norm_num)]; norm_num)⟩

/-- C6: dip evaluation returns insufficient data (`none`) on every bar
sequence shorter than the lookback window; whenever it returns a value,
that value is strictly negative and equals `(current_price - high) / high`
for the maximum close `high` over the most recent `n` bars; and whenever
the current price is at or above that trailing high it returns no dip —
never zero or a positive number. -/
theorem C6_dip_evaluation (current_price : ℚ) (bars : List Bar) (n : ℕ) :
    (bars.length < n → calculate_dip current_price bars n = none) ∧
    (∀ d, calculate_dip current_price bars n = some d →
      d < 0 ∧ ∃ high, recent_high bars n = some high ∧ 0 < high ∧
        d = (current_price - high) / high) ∧
    (∀ high, recent_high bars n = some high → high ≤ current_price →
      calculate_dip current_price bars n = none) := by
  unfold calculate_dip
  by_cases hg : bars.isEmpty ∨ bars.length < n
  · rw [if_pos hg]
    exact ⟨fun _ => rfl, by simp, fun _ _ _ => rfl⟩
  · rw [if_neg hg]
    refine ⟨fun hl => absurd (Or.inr hl) hg, ?_, ?_⟩
    · intro d hd
      cases hrh : recent_high bars n with
      | none => rw [hrh] at hd; exact absurd hd (by simp)
      | some high =>
        rw [hrh] at hd
        dsimp only at hd
        by_cases hle : high ≤ 0
        · rw [if_pos hle] at hd; exact absurd hd (by simp)
        · rw [if_neg hle] at hd
          by_cases hneg : (current_price - high) / high < 0
          · rw [if_pos hneg] at hd
            injection hd with heq
            subst heq
            exact ⟨hneg, high, rfl, not_le.1 hle, rfl⟩
          · rw [if_neg hneg] at hd; exact absurd hd (by simp)
    · intro high hrh hge
      rw [hrh]
      dsimp only
      by_cases hle : high ≤ 0
      · rw [if_pos hle]
      · rw [if_neg hle, if_neg
          (not_lt.2 (div_nonneg (sub_nonneg.2 hge) (not_le.1 hle).le))]

theorem C6_dip_evaluation_witness :
    (([] : List Bar).length < 1 ∧ calculate_dip 95 [] 1 = none) ∧
    ((-1 / 20 : ℚ) < 0 ∧ ∃ high, recent_high [⟨100, 100, 100, 100⟩] 1 = some high ∧
      0 < high ∧ (-1 / 20 : ℚ) = (95 - high) / high) ∧
    calculate_dip 105 [⟨100, 100, 100, 100⟩] 1 = none :=
  ⟨⟨by norm_num, (C6_dip_evaluation 95 [] 1).1 (by norm_num)⟩,
   (C6_dip_evaluation 95 [⟨100, 100, 100, 100⟩] 1).2.1 (-1 / 20)
     (by norm_num [calculate_dip, recent_high, trailing_closes, List.max?]),
   (C6_dip_evaluation 105 [⟨100, 100, 100, 100⟩] 1).2.2 100
     (by norm_num [recent_high, trailing_closes, List.max?]) (by norm_num)⟩

/-- C9: the opportunity score is `|dip_pct| / threshold`; on the pairs
(-0.15, 0.08), (-0.04, 0.03), (-0.10, 0.05) the scores are 1.875, 4/3 and
2.0, ordered 2.0 > 1.875 > 4/3 as claimed; and qualifying opportunities
are executed in descending score order: the prioritizer's sort always
produces a list whose scores are non-increasing (execution then walks that
list front to back), and on the three example opportunities it puts the
(-0.10, 0.05) symbol first and the (-0.04, 0.03) symbol last. -/
theorem C9_opportunity_score_order :
    calculate_opportunity_score (-0.10) 0.05 = 2 ∧
    calculate_opportunity_score (-0.15) 0.08 = 1.875 ∧
    calculate_opportunity_score (-0.04) 0.03 = 4 / 3 ∧
    (2 : ℚ) > 1.875 ∧ (1.875 : ℚ) > 4 / 3 ∧
    (∀ l : List Opportunity,
      (sort_by_score l).Sorted (fun a b => opp_score b ≤ opp_score a)) ∧
    (sort_by_score [⟨1, -0.15, 0.08, 1, 1, 1, 0⟩, ⟨2, -0.04, 0.03, 1, 1, 1, 0⟩,
        ⟨3, -0.10, 0.05, 1, 1, 1, 0⟩]).map Opportunity.symbol = [3, 1, 2] := by
  refine ⟨?_, ?_, ?_, by norm_num, by norm_num, sorted_sort_by_score, ?_⟩
  · rw [calculate_opportunity_score, abs_of_nonpos (by norm_num)]; norm_num
  · rw [calculate_opportunity_score, abs_of_nonpos (by norm_num)]; norm_num
  · rw [calculate_opportunity_score, abs_of_nonpos (by norm_num)]; norm_num
  · norm_num [sort_by_score, insert_by_score, opp_score,
      calculate_opportunity_score, abs_of_nonpos]

/-- C2: whenever an order is actually attempted (the sized share count is
at least 0.01) in a live account (positive equity), the Capital Governor
denies with reason capital — leaving the committed-this-cycle total and all
other controller state unchanged — exactly when the projected margin ratio
`max(0, -(cash - cycle_committed - order_value)) / equity` exceeds
`MAX_MARGIN_PCT`, or the order value exceeds the available buying power. -/
theorem C2_capital_governor (opp : Opportunity) (equity cash buying_power now : ℚ)
    (st : ControllerState) (outcome : PlaceOutcome)
    (hE : 0 < equity)
    (hS : 0.01 ≤ calculate_shares_spec opp.dip_pct opp.current_price equity
      opp.current_position_value BASE_POSITION_PCT MAX_POSITION_PCT DIP_MULTIPLIER
      true opp.volatility_factor opp.intraday_multiplier) :
    ((execute_opportunity opp equity cash buying_power st now outcome).1 = .capital ↔
      MAX_MARGIN_PCT <
        max 0 (-(cash - st.cycle_order_value - opp_order_value opp equity)) / equity ∨
      buying_power < opp_order_value opp equity) ∧
    ((execute_opportunity opp equity cash buying_power st now outcome).1 = .capital →
      (execute_opportunity opp equity cash buying_power st now outcome).2 = st) := by
  have hns : ¬ (calculate_shares_spec opp.dip_pct opp.current_price equity
      opp.current_position_value BASE_POSITION_PCT MAX_POSITION_PCT DIP_MULTIPLIER
      true opp.volatility_factor opp.intraday_multiplier < 0.01) := not_lt.2 hS
  simp only [execute_opportunity, opp_order_value, USE_MARGIN, if_neg hns, if_pos hE,
    if_true]
  split_ifs with hA hB <;> simp_all

theorem C2_capital_governor_witness :
    (0 : ℚ) < 32000 ∧
    (0.01 : ℚ) ≤ calculate_shares_spec (-0.06) 100 32000 0 BASE_POSITION_PCT
      MAX_POSITION_PCT DIP_MULTIPLIER true 1 1 ∧
    (((execute_opportunity ⟨0, -0.06, 0.05, 100, 1, 1, 0⟩ 32000 0 1000000
          ControllerState.initial 0 .failed).1 = .capital ↔
        MAX_MARGIN_PCT < max 0 (-((0 : ℚ) - ControllerState.initial.cycle_order_value -
          opp_order_value ⟨0, -0.06, 0.05, 100, 1, 1, 0⟩ 32000)) / 32000 ∨
        (1000000 : ℚ) < opp_order_value ⟨0, -0.06, 0.05, 100, 1, 1, 0⟩ 32000) ∧
      ((execute_opportunity ⟨0, -0.06, 0.05, 100, 1, 1, 0⟩ 32000 0 1000000
          ControllerState.initial 0 .failed).1 = .capital →
        (execute_opportunity ⟨0, -0.06, 0.05, 100, 1, 1, 0⟩ 32000 0 1000000
          ControllerState.initial 0 .failed).2 = ControllerState.initial)) :=
  ⟨by norm_num,
   by norm_num [calculate_shares_spec, size_multiplier, safe_vol_factor,
     BASE_POSITION_PCT, MAX_POSITION_PCT, DIP_MULTIPLIER, abs_of_nonpos],
   C2_capital_governor ⟨0, -0.06, 0.05, 100, 1, 1, 0⟩ 32000 0 1000000 0
     ControllerState.initial .failed (by norm_num)
     (by norm_num [calculate_shares_spec, size_multiplier, safe_vol_factor,
       BASE_POSITION_PCT, MAX_POSITION_PCT, DIP_MULTIPLIER, abs_of_nonpos])⟩

/-- C7 counterexample: the claim says a buy is denied on cooldown grounds
exactly when the elapsed time is under the effective (steep-dip-halved)
cooldown.  With the deployed base cooldown of 3 hours, an 8% dip and 2
hours elapsed since the last trade, the effective cooldown is 1 hour and 2
hours is NOT under it — yet the scan pipeline still denies, because the
backup check of `main.scan_symbol` lines 451-454 enforces the full base
cooldown from the epoch-seconds cache. -/
theorem C7_counterexample :
    denied_on_cooldown (-0.08) 0.05 0 5000 (some 2) 3 0.05 = true ∧
    ¬ ((2 : ℚ) < ((effective_cooldown (-0.08) 3 : ℤ) : ℚ)) := by
  have heff : effective_cooldown (-0.08) 3 = 1 := by
    rw [effective_cooldown, if_pos]
    · decide
    · rw [abs_of_nonpos (by norm_num)]; norm_num
  constructor
  · rw [denied_on_cooldown]
    rw [Bool.or_eq_true, decide_eq_true_iff]
    left
    norm_num
  · rw [heff]
    norm_num

/-- C7 as amended: for a symbol whose last trade is in both cooldown
caches, and whose dip passes the absolute-floor, threshold and position
checks, a buy is denied on cooldown grounds exactly when the elapsed time
is under `max(base cooldown, effective cooldown)` — the scan-level backup
check (`main.scan_symbol` lines 451-454) always enforces the full base
cooldown, so the steep-dip halving of `should_buy` never lets a symbol
re-trade sooner than the base cooldown; a symbol with no last-trade
timestamp is never denied on cooldown grounds. -/
theorem C7_cooldown_blocking (dip_pct min_dip position_value max_position e : ℚ)
    (cooldown_hours : ℤ) (min_absolute_dip : ℚ)
    (h1 : min_absolute_dip ≤ |dip_pct|) (h2 : min_dip ≤ |dip_pct|)
    (h3 : position_value < max_position) :
    (denied_on_cooldown dip_pct min_dip position_value max_position (some e)
        cooldown_hours min_absolute_dip = true ↔
      e < max (cooldown_hours : ℚ)
        ((effective_cooldown dip_pct cooldown_hours : ℤ) : ℚ)) ∧
    denied_on_cooldown dip_pct min_dip position_value max_position none
      cooldown_hours min_absolute_dip = false := by
  refine ⟨?_, rfl⟩
  rw [denied_on_cooldown]
  rw [Bool.or_eq_true, decide_eq_true_iff, decide_eq_true_iff]
  rw [should_buy, if_neg (not_lt.2 h1), if_neg (not_lt.2 h2), if_neg (not_le.2 h3)]
  have h3600 : (0 : ℚ) < 3600 := by norm_num
  by_cases hc : e < ((effective_cooldown dip_pct cooldown_hours : ℤ) : ℚ)
  · rw [if_pos hc]
    simp only [lt_max_iff]
    exact ⟨fun _ => Or.inr hc, fun _ => Or.inr trivial⟩
  · rw [if_neg hc]
    simp only [lt_max_iff]
    constructor
    · rintro (hlt | habs)
      · exact Or.inl ((mul_lt_mul_right h3600).1 hlt)
      · exact absurd habs (by simp)
    · rintro (hlt | hlt)
      · exact Or.inl ((mul_lt_mul_right h3600).2 hlt)
      · exact absurd hlt hc

theorem C7_cooldown_blocking_witness :
    (0.05 : ℚ) ≤ |(-0.08 : ℚ)| ∧ (0.05 : ℚ) ≤ |(-0.08 : ℚ)| ∧ (0 : ℚ) < 5000 ∧
    ((denied_on_cooldown (-0.08) 0.05 0 5000 (some 2.5) 3 0.05 = true ↔
        (2.5 : ℚ) < max ((3 : ℤ) : ℚ) ((effective_cooldown (-0.08) 3 : ℤ) : ℚ)) ∧
      denied_on_cooldown (-0.08) 0.05 0 5000 none 3 0.05 = false) :=
  have habs : (0.05 : ℚ) ≤ |(-0.08 : ℚ)| := by
    rw [abs_of_nonpos (by norm_num)]; norm_num
  ⟨habs, habs, by norm_num,
   C7_cooldown_blocking (-0.08) 0.05 0 5000 2.5 3 0.05 habs habs (by norm_num)⟩

/-- C8 counterexample: monotonicity of `calculate_shares` in `|dip_pct|`
fails for input combinations the claim's universal quantification admits:
with a negative current price the share count strictly decreases as the
dip deepens (3% dip gives -14 shares, 6% dip gives -28). -/
theorem C8_counterexample :
    |(-0.03 : ℚ)| ≤ |(-0.06 : ℚ)| ∧
    calculate_shares (-0.06) (-100) 32000 0 0.025 0.15 1.75 true 1 <
      calculate_shares (-0.03) (-100) 32000 0 0.025 0.15 1.75 true 1 := by
  constructor
  · rw [abs_of_nonpos (by norm_num), abs_of_nonpos (by norm_num)]; norm_num
  · norm_num [calculate_shares, target_value, size_multiplier, safe_vol_factor,
      abs_of_nonpos]

/-- C8 as amended: `calculate_shares` is monotonically non-decreasing in
`|dip_pct|` holding every other input fixed, provided the price is positive
and the equity, base percentage and dip multiplier are non-negative (as
they are in every real invocation); and the target position value is
capped at `equity * max_pct` unconditionally, for every input
combination. -/
theorem C8_sizing_monotone_capped (d1 d2 current_price equity
    current_position_value base_pct max_pct dip_multiplier : ℚ)
    (fractional : Bool) (volatility_factor : ℚ) :
    (0 < current_price → 0 ≤ equity → 0 ≤ base_pct → 0 ≤ dip_multiplier →
      |d1| ≤ |d2| →
      calculate_shares d1 current_price equity current_position_value base_pct
          max_pct dip_multiplier fractional volatility_factor ≤
        calculate_shares d2 current_price equity current_position_value base_pct
          max_pct dip_multiplier fractional volatility_factor) ∧
    target_value d1 equity base_pct max_pct dip_multiplier volatility_factor ≤
      equity * max_pct := by
  constructor
  · intro hp heq hb hdm hd
    unfold calculate_shares
    have htv := @target_value_mono d1 d2 equity base_pct max_pct dip_multiplier
      volatility_factor heq hb hdm hd
    have ha : max 0 (target_value d1 equity base_pct max_pct dip_multiplier
        volatility_factor - current_position_value) ≤
        max 0 (target_value d2 equity base_pct max_pct dip_multiplier
          volatility_factor - current_position_value) :=
      max_le_max le_rfl (sub_le_sub_right htv _)
    have ha2 : (0 : ℚ) ≤ max 0 (target_value d2 equity base_pct max_pct
        dip_multiplier volatility_factor - current_position_value) :=
      le_max_left _ _
    by_cases hs1 : max 0 (target_value d1 equity base_pct max_pct dip_multiplier
        volatility_factor - current_position_value) < 100 <;>
      by_cases hs2 : max 0 (target_value d2 equity base_pct max_pct dip_multiplier
        volatility_factor - current_position_value) < 100
    · rw [if_pos hs1, if_pos hs2]
    · rw [if_pos hs1, if_neg hs2]
      have hq2 : (0 : ℚ) ≤ max 0 (target_value d2 equity base_pct max_pct
          dip_multiplier volatility_factor - current_position_value) /
          current_price := div_nonneg ha2 hp.le
      cases fractional
      · exact pyInt_nonneg hq2
      · exact hq2
    · exact absurd (lt_of_le_of_lt ha hs2) hs1
    · rw [if_neg hs1, if_neg hs2]
      have hdiv : max 0 (target_value d1 equity base_pct max_pct dip_multiplier
          volatility_factor - current_position_value) / current_price ≤
          max 0 (target_value d2 equity base_pct max_pct dip_multiplier
            volatility_factor - current_position_value) / current_price :=
        (div_le_div_right hp).2 ha
      cases fractional
      · exact pyInt_mono (div_nonneg (le_max_left _ _) hp.le) hdiv
      · exact hdiv
  · exact min_le_right _ _

theorem C8_sizing_monotone_capped_witness :
    (0 : ℚ) < 100 ∧ (0 : ℚ) ≤ 32000 ∧ (0 : ℚ) ≤ 0.025 ∧ (0 : ℚ) ≤ 1.75 ∧
    |(-0.03 : ℚ)| ≤ |(-0.06 : ℚ)| ∧
    calculate_shares (-0.03) 100 32000 0 0.025 0.15 1.75 true 1 ≤
      calculate_shares (-0.06) 100 32000 0 0.025 0.15 1.75 true 1 :=
  have habs : |(-0.03 : ℚ)| ≤ |(-0.06 : ℚ)| := by
    rw [abs_of_nonpos (by norm_num), abs_of_nonpos (by norm_num)]; norm_num
  ⟨by norm_num, by norm_num, by norm_num, by norm_num, habs,
   (C8_sizing_monotone_capped (-0.03) (-0.06) 100 32000 0 0.025 0.15 1.75 true 1).1
     (by norm_num) (by norm_num) (by norm_num) (by norm_num) habs⟩

/-- C4 counterexample: the claim says an opportunity whose order submission
fails contributes nothing to the committed total and is not reported as
executed.  On the code, `_place_order` swallows its own failures
(lines 619-620) and `execute_opportunity` then unconditionally adds the
order value and reports success (lines 556-558): at this concrete input the
brokerage submission fails, no order is tracked, yet the outcome is
`executed` and the committed-this-cycle total grows by the full 2800 order
value. -/
theorem C4_counterexample :
    (execute_opportunity ⟨0, -0.06, 0.05, 100, 1, 1, 0⟩ 32000 100000 1000000
        ControllerState.initial 5 .failed).1 = .executed ∧
    (execute_opportunity ⟨0, -0.06, 0.05, 100, 1, 1, 0⟩ 32000 100000 1000000
        ControllerState.initial 5 .failed).2.cycle_order_value = 2800 ∧
    (execute_opportunity ⟨0, -0.06, 0.05, 100, 1, 1, 0⟩ 32000 100000 1000000
        ControllerState.initial 5 .failed).2.pending_orders = [] := by
  norm_num [execute_opportunity, calculate_shares_spec, size_multiplier,
    safe_vol_factor, BASE_POSITION_PCT, MAX_POSITION_PCT, DIP_MULTIPLIER,
    MAX_MARGIN_PCT, USE_MARGIN, place_order, ControllerState.initial,
    abs_of_nonpos]

/-- C4 as amended: the running committed-this-cycle total starts every
cycle at zero and, after the cycle's opportunities are processed, equals
the sum of the order values of the opportunities whose execution was
reported as executed — i.e. those that passed the sizing and capital
checks and reached order placement.  (A brokerage submission failure does
not remove an opportunity from this sum: `_place_order` swallows the
failure, the order value is still committed, and the opportunity is still
reported as executed; see the counterexample.) -/
theorem C4_committed_total (opps : List (Opportunity × PlaceOutcome))
    (equity cash buying_power now : ℚ) (st : ControllerState) :
    (run_cycle_exec opps equity cash buying_power now st).1.cycle_order_value =
      (((run_cycle_exec opps equity cash buying_power now st).2.filter
          (fun pr => pr.2 = ExecOutcome.executed)).map
        (fun pr => opp_order_value pr.1 equity)).sum := by
  unfold run_cycle_exec
  rw [exec_list_cycle_value]
  simp

/-- C10: after reconciliation every tracked order is open at the brokerage
and within the timeout (and was tracked before); every tracked order that
is still open and older than the timeout receives a cancellation call and
is removed from the pending map in that same cycle (the record is dropped
whatever the cancellation call returns — the model's state change does not
depend on its outcome, mirroring the `del` outside the inner `try`); and
every tracked order absent from the brokerage's open-order listing is
removed without any cancellation call. -/
theorem C10_order_lifecycle (pending : List (ℕ × PendingOrder))
    (open_orders : List ℕ) (now : ℚ)
    (hnd : (pending.map Prod.fst).Nodup) :
    (∀ e ∈ (manage_pending_orders pending open_orders now).1,
      e.1 ∈ open_orders ∧ now - e.2.submitted ≤ ORDER_TIMEOUT_MINUTES ∧
        e ∈ pending) ∧
    (∀ oid p, (oid, p) ∈ pending → oid ∈ open_orders →
      ORDER_TIMEOUT_MINUTES < now - p.submitted →
      oid ∈ (manage_pending_orders pending open_orders now).2 ∧
        oid ∉ (manage_pending_orders pending open_orders now).1.map Prod.fst) ∧
    (∀ oid p, (oid, p) ∈ pending → oid ∉ open_orders →
      oid ∉ (manage_pending_orders pending open_orders now).1.map Prod.fst ∧
        oid ∉ (manage_pending_orders pending open_orders now).2) := by
  simp only [manage_pending_orders]
  refine ⟨?_, ?_, ?_⟩
  · intro e he
    rw [List.mem_filter] at he
    obtain ⟨h1, h2⟩ := he
    have hopen : e.1 ∈ open_orders := by simpa using h2
    obtain ⟨hp, hcl⟩ := fold_pending_clean now open_orders (pending, []) hnd h1
    exact ⟨hopen, not_lt.1 (hcl hopen), hp⟩
  · intro oid p hp hopen hold
    refine ⟨fold_cancelling now open_orders (pending, []) hnd hp hold hopen, ?_⟩
    intro hk
    obtain ⟨e, he, hke⟩ := List.mem_map.1 hk
    rw [List.mem_filter] at he
    obtain ⟨h1, _⟩ := he
    obtain ⟨hp2, hcl⟩ := fold_pending_clean now open_orders (pending, []) hnd h1
    have hep : e.2 = p := by
      refine keys_nodup_mem_unique hnd ?_ hp
      rw [← hke]
      simpa using hp2
    have hno := hcl (hke ▸ hopen)
    rw [hep] at hno
    exact hno hold
  · intro oid p hp hopen
    constructor
    · intro hk
      obtain ⟨e, he, hke⟩ := List.mem_map.1 hk
      rw [List.mem_filter] at he
      have : e.1 ∈ open_orders := by simpa using he.2
      exact hopen (hke ▸ this)
    · intro hc
      rcases fold_cancels_src now open_orders (pending, []) hc with h | h
      · exact absurd h (List.not_mem_nil _)
      · exact hopen h

theorem C10_order_lifecycle_witness :
    (([((1 : ℕ), (⟨5, 1, 10, 0⟩ : PendingOrder))].map Prod.fst).Nodup) ∧
    1 ∈ (manage_pending_orders [(1, ⟨5, 1, 10, 0⟩)] [1] 20).2 :=
  ⟨by simp,
   ((C10_order_lifecycle [(1, ⟨5, 1, 10, 0⟩)] [1] 20 (by simp)).2.1 1 ⟨5, 1, 10, 0⟩
     (by simp) (by simp) (by norm_num [ORDER_TIMEOUT_MINUTES])).1⟩

theorem C3_emergency_brake_witness :
    (0 : ℚ) < 100000 ∧
    ((emergency_brake_trips 100000 (-20000) = true ↔
        max 0 (-(-20000 : ℚ)) / 100000 > MARGIN_SAFETY_THRESHOLD) ∧
      margin_ratio 100000 (-15000) = 0.15 ∧
      emergency_brake_trips 100000 (-15000) = false ∧
      margin_ratio 100000 (-16000) = 0.16 ∧
      emergency_brake_trips 100000 (-16000) = true) :=
  ⟨by norm_num, C3_emergency_brake 100000 (-20000) (by norm_num)⟩

end BigDipper
